import Mathlib

/-!
# Verification of the scroll-driven animation orchestration of the Demon-Slayer site

Shallow embedding of the scroll/animation logic of the repository:

* `src/lib/animations.ts` — the reusable GSAP helpers (`fadeInUp`,
  `parallax`, `horizontalScroll`, `counterAnimation`, `slowZoom`,
  `createGsapContext`);
* `src/components/MangaSection.tsx`, `src/components/ImpactSection.tsx` —
  inline stat counters and separator tweens;
* `src/components/LenisProvider.tsx` — smooth-scroll emulator lifecycle;
* `src/components/CharactersSection.tsx` — carousel index arithmetic;
* the navbar scroll handler (unnamed source `part_001`).

Numbers that the page manipulates (scroll offsets, eased progress values,
tween scalars) are embedded as rationals `ℚ`; DOM text is `String`;
configuration records are Lean structures mirroring the literal objects
passed to the animation library.
-/

namespace DemonSlayer

/- ===================== C9: character carousel ===================== -/

/-- The `CHARACTERS` record list of `src/components/CharactersSection.tsx`
(lines 36–147), embedded by the `name` field of each record; the carousel
logic only ever uses `CHARACTERS.length`. -/
def CHARACTERS : List String :=
  ["Tanjiro Kamado", "Nezuko Kamado", "Zenitsu Agatsuma", "Inosuke Hashibira",
   "Giyu Tomioka", "Kyojuro Rengoku", "Shinobu Kocho", "Tengen Uzui",
   "Mitsuri Kanroji", "Gyomei Himejima", "Akaza"]

/-- `handleNext` of `CharactersSection`: `(prev + 1) % CHARACTERS.length`.
The auto-play interval body uses the same update. -/
def handleNext (i : ℕ) : ℕ := (i + 1) % CHARACTERS.length

/-- `handlePrev` of `CharactersSection`:
`(prev - 1 + CHARACTERS.length) % CHARACTERS.length`.  In the source the
index is always in range, so `prev - 1 + length` never underflows; we embed
it on `ℕ` exactly as written. -/
def handlePrev (i : ℕ) : ℕ := (i + CHARACTERS.length - 1) % CHARACTERS.length

/-- One carousel navigation event: the next button / auto-play tick / a
left swipe call `handleNext`; the prev button / a right swipe call
`handlePrev` (see `onDragEnd`, lines 697–704). -/
inductive CarouselOp where
  | next
  | prev
deriving DecidableEq, Repr

/-- Apply one navigation event to the active index. -/
def carouselStep (i : ℕ) : CarouselOp → ℕ
  | .next => handleNext i
  | .prev => handlePrev i

/-- Run a sequence of navigation events from the initial `activeIndex`,
which `useState(0)` sets to `0`. -/
def carouselRun (ops : List CarouselOp) : ℕ :=
  ops.foldl carouselStep 0

theorem CHARACTERS_length : CHARACTERS.length = 11 := by decide

theorem carouselStep_lt (i : ℕ) (op : CarouselOp) : carouselStep i op < 11 := by
  cases op <;>
    simp only [carouselStep, handleNext, handlePrev, CHARACTERS_length] <;>
    omega

/-- **C9.** The carousel's active index is always a valid index into the
11-element `CHARACTERS` list: starting from 0, any sequence of next/prev
operations (buttons, auto-play timer, drag gesture) keeps the index in
`[0, 10]`, `next` is `(i + 1) % 11`, `prev` is `(i - 1 + 11) % 11`, and
navigating past either end wraps around. -/
theorem C9_carousel_index_in_range :
    (∀ ops : List CarouselOp, carouselRun ops ≤ 10) ∧
    (∀ i : ℕ, handleNext i = (i + 1) % 11) ∧
    (∀ i : ℕ, i ≤ 10 → handlePrev i = (i + 11 - 1) % 11) ∧
    handleNext 10 = 0 ∧ handlePrev 0 = 10 := by
  refine ⟨?_, ?_, ?_, by decide, by decide⟩
  · intro ops
    have key : ∀ (l : List CarouselOp) (i : ℕ), i < 11 → l.foldl carouselStep i < 11 := by
      intro l
      induction l with
      | nil => intro i hi; simpa using hi
      | cons op t ih =>
          intro i _
          simpa using ih (carouselStep i op) (carouselStep_lt i op)
    have h := key ops 0 (by omega)
    simpa [carouselRun] using Nat.lt_succ_iff.mp h
  · intro i; simp [handleNext, CHARACTERS_length]
  · intro i _; simp [handlePrev, CHARACTERS_length]

/-- Witness for C9 at a concrete input: three wrap-around operations. -/
theorem C9_witness :
    carouselRun [.next, .prev, .prev] ≤ 10 ∧ handlePrev 3 = (3 + 11 - 1) % 11 ∧ (3 : ℕ) ≤ 10 :=
  ⟨C9_carousel_index_in_range.1 [.next, .prev, .prev],
   C9_carousel_index_in_range.2.2.1 3 (by decide), by decide⟩

/- ===================== C10: navbar hide/show ===================== -/

/-- The navbar state touched by `handleScroll` (unnamed source `part_001`,
lines 28–48): `isScrolled`, `isHidden`, `mobileOpen` from `useState`, and
the `lastScrollY` ref. -/
structure NavState where
  isScrolled : Bool
  isHidden   : Bool
  mobileOpen : Bool
  lastScrollY : ℚ
deriving DecidableEq, Repr

/-- `handleScroll` (lines 37–48): reads `window.scrollY` as `currentY`,
sets `isScrolled := currentY > 50`; if `currentY > lastScrollY ∧
currentY > 200` hides the bar and closes the mobile menu, otherwise shows
the bar; finally records `lastScrollY := currentY`. -/
def handleScroll (s : NavState) (currentY : ℚ) : NavState :=
  let s1 : NavState := { s with isScrolled := decide (currentY > 50) }
  let s2 : NavState :=
    if currentY > s.lastScrollY ∧ currentY > 200 then
      { s1 with isHidden := true, mobileOpen := false }
    else
      { s1 with isHidden := false }
  { s2 with lastScrollY := currentY }

/-- **C10.** The navigation bar is hidden exactly when a scroll event sees
the position both above the previously recorded position and above 200px;
then the mobile menu is also closed; on any other scroll event the bar is
shown again (and the menu is left as it was). -/
theorem C10_navbar_hide_show (s : NavState) (y : ℚ) :
    ((handleScroll s y).isHidden ↔ (y > s.lastScrollY ∧ y > 200)) ∧
    (y > s.lastScrollY ∧ y > 200 → (handleScroll s y).mobileOpen = false) ∧
    (¬(y > s.lastScrollY ∧ y > 200) →
      (handleScroll s y).isHidden = false ∧
      (handleScroll s y).mobileOpen = s.mobileOpen) ∧
    (handleScroll s y).lastScrollY = y := by
  by_cases h : y > s.lastScrollY ∧ y > 200 <;>
    simp [handleScroll, h]

/-- Witness for C10 at a concrete input: scrolling down past 200 from 100
to 300 hides the bar and closes the menu. -/
theorem C10_witness :
    ((handleScroll ⟨false, false, true, 100⟩ 300).isHidden ↔
      ((300 : ℚ) > 100 ∧ (300 : ℚ) > 200)) ∧
    (handleScroll ⟨false, false, true, 100⟩ 300).mobileOpen = false :=
  ⟨(C10_navbar_hide_show ⟨false, false, true, 100⟩ 300).1,
   (C10_navbar_hide_show ⟨false, false, true, 100⟩ 300).2.1 (by norm_num)⟩

/- ===================== C5: Lenis provider lifecycle ===================== -/

/-- Frame-loop / listener registrations touched by `LenisProvider`
(`src/components/LenisProvider.tsx`): how many per-frame callbacks for the
Lenis instance are registered on `gsap.ticker`, how many native scroll
listeners the Lenis instance holds, and whether the instance is alive. -/
structure LenisState where
  tickerCallbacks : ℕ
  lenisListeners  : ℕ
  lenisAlive      : Bool
deriving DecidableEq, Repr

/-- State before the provider's effect runs: nothing registered. -/
def lenisInitial : LenisState := ⟨0, 0, false⟩

/-- The `useEffect` body (lines 18–39): constructs the Lenis instance
(which installs its native wheel/scroll listeners), subscribes
`ScrollTrigger.update` to its scroll event, and adds one anonymous
per-frame callback `time => lenis.raf(time * 1000)` to `gsap.ticker`. -/
def mountLenisProvider (s : LenisState) : LenisState :=
  { tickerCallbacks := s.tickerCallbacks + 1
    lenisListeners := s.lenisListeners + 1
    lenisAlive := true }

/-- The effect's cleanup (lines 41–45): it calls `lenis.destroy()` (which
removes the listeners Lenis itself installed and stops the instance) and
nulls the ref.  No `gsap.ticker.remove` call appears anywhere in the file,
so the per-frame callback added by `gsap.ticker.add` is left registered. -/
def cleanupLenisProvider (s : LenisState) : LenisState :=
  { s with lenisListeners := 0, lenisAlive := false }

/-- **C5 (bug evaluation).** After one mount/unmount cycle of
`LenisProvider`, the per-frame callback added to `gsap.ticker` is still
registered: the cleanup never releases the frame-loop subscription, so the
dead instance's `raf` keeps being invoked every frame — contrary to the
claim (and to the cleanup's own comment, which promises to "remove from
GSAP ticker"). -/
theorem C5_ticker_callback_leaks :
    (cleanupLenisProvider (mountLenisProvider lenisInitial)).tickerCallbacks = 1 ∧
    (cleanupLenisProvider (mountLenisProvider lenisInitial)).tickerCallbacks ≠ 0 ∧
    (cleanupLenisProvider (mountLenisProvider lenisInitial)).lenisAlive = false := by
  refine ⟨rfl, ?_, rfl⟩
  decide

/- ===================== C6: lag smoothing ===================== -/

/-- A `gsap.ticker.lagSmoothing(threshold, adjustedLag)` configuration:
when the threshold is positive and the elapsed time since the previous
frame exceeds it, the ticker reports `adjustedLag` to its callbacks
instead of the true elapsed time; a threshold of `0` disables the
mechanism entirely (GSAP documents `lagSmoothing(0)` as "deactivate"). -/
structure LagConfig where
  threshold   : ℚ
  adjustedLag : ℚ
deriving DecidableEq, Repr

/-- Elapsed time (milliseconds) the ticker actually reports under a lag
configuration. -/
def effectiveElapsed (c : LagConfig) (elapsed : ℚ) : ℚ :=
  if 0 < c.threshold ∧ c.threshold < elapsed then c.adjustedLag else elapsed

/-- GSAP's out-of-the-box lag smoothing: `lagSmoothing(500, 33)`. -/
def gsapDefaultLag : LagConfig := ⟨500, 33⟩

/-- The configuration `LenisProvider` installs at line 39:
`gsap.ticker.lagSmoothing(0)` — threshold `0`, i.e. disabled. -/
def lenisProviderLag : LagConfig := ⟨0, 33⟩

/-- **C6 (counterexample).** The claim says elapsed time above a fixed
ceiling is treated as one frame.  With the provider's setting a 2000 ms
stall is reported to the frame callback as 2000 ms, unclamped — whereas
GSAP's default would have clamped it to 33 ms; the code explicitly turns
the clamp off. -/
theorem C6_counterexample :
    effectiveElapsed lenisProviderLag 2000 = 2000 ∧
    effectiveElapsed gsapDefaultLag 2000 = 33 ∧
    (2000 : ℚ) ≠ 33 := by
  refine ⟨?_, ?_, by norm_num⟩ <;> simp [effectiveElapsed, lenisProviderLag, gsapDefaultLag]
  norm_num

/-- **C6 (amended).** `LenisProvider` calls `gsap.ticker.lagSmoothing(0)`,
disabling catch-up clamping: for every elapsed time, the ticker reports
the elapsed time unchanged to the Lenis frame callback; no ceiling is
applied. -/
theorem C6_lag_smoothing_disabled (elapsed : ℚ) :
    effectiveElapsed lenisProviderLag elapsed = elapsed := by
  simp [effectiveElapsed, lenisProviderLag]

/- ===================== C1: numeric counters ===================== -/

/-- GSAP's `"power2.out"` easing, used by `counterAnimation` and both
inline stat-counter effects: `power2.out(u) = 1 - (1 - u)^3`. -/
def power2Out (u : ℚ) : ℚ := 1 - (1 - u) ^ 3

/-- The tween scalar `obj.value` at time `t` of a counter tween: GSAP
interpolates `0 → target` by the eased fraction of the configured
duration, `value = target * power2Out (t / duration)`. -/
def counterValue (target duration t : ℚ) : ℚ :=
  target * power2Out (t / duration)

/-- One digit-grouping pass over a reversed digit list: after every three
digits a `','` separator is inserted (the `en` grouping
`Number.prototype.toLocaleString` applies). -/
def groupRevAux : ℕ → List Char → List Char
  | _, [] => []
  | n, c :: cs =>
      if n = 3 then ',' :: c :: groupRevAux 1 cs
      else c :: groupRevAux (n + 1) cs

/-- `Number.prototype.toLocaleString()` on an integer (default `en`
locale): decimal digits grouped in threes by commas, with a leading sign
for negatives. -/
def toLocaleStringEn (n : ℤ) : String :=
  (if n < 0 then "-" else "") ++
    String.mk ((groupRevAux 0 (toString n.natAbs).toList.reverse).reverse)

/-- The text `counterAnimation` (src/lib/animations.ts lines 158–160)
writes on every update frame:
`prefix + Math.round(obj.value).toLocaleString() + suffix`.
(`Math.round` rounds half toward `+∞`, as does Mathlib's `round`.)
`prefix`/`suffix` are keywords in Lean, hence `pfx`/`sfx`. -/
def counterRender (pfx sfx : String) (target duration t : ℚ) : String :=
  pfx ++ toLocaleStringEn (round (counterValue target duration t)) ++ sfx

/-- The text the inline stat counter of `MangaSection.tsx` (line 94)
writes on every update frame: `Math.round(obj.value) + suffix`
(no locale formatting, no prefix). -/
def mangaStatRender (sfx : String) (target duration t : ℚ) : String :=
  toString (round (counterValue target duration t)) ++ sfx

theorem power2Out_mem_unitInterval {u : ℚ} (h0 : 0 ≤ u) (h1 : u ≤ 1) :
    0 ≤ power2Out u ∧ power2Out u ≤ 1 := by
  have hw0 : (0 : ℚ) ≤ 1 - u := by linarith
  have hw1 : (1 : ℚ) - u ≤ 1 := by linarith
  have hp0 : (0 : ℚ) ≤ (1 - u) ^ 3 := pow_nonneg hw0 3
  have hp1 : (1 - u) ^ 3 ≤ 1 := pow_le_one₀ hw0 hw1
  constructor <;> simp [power2Out] <;> linarith

theorem counterValue_bounds (target : ℕ) {d t : ℚ} (hd : 0 < d)
    (h0 : 0 ≤ t) (h1 : t ≤ d) :
    0 ≤ counterValue target d t ∧ counterValue target d t ≤ target := by
  have hu0 : (0 : ℚ) ≤ t / d := div_nonneg h0 hd.le
  have hu1 : t / d ≤ 1 := (div_le_one hd).mpr h1
  obtain ⟨hp0, hp1⟩ := power2Out_mem_unitInterval hu0 hu1
  have htn : (0 : ℚ) ≤ (target : ℚ) := by positivity
  constructor
  · exact mul_nonneg htn hp0
  · simpa using mul_le_of_le_one_right htn hp1

theorem round_mono_rat {a b : ℚ} (h : a ≤ b) : round a ≤ round b := by
  rw [round_eq, round_eq]
  exact Int.floor_le_floor (by linarith)

theorem counterValue_full : counterValue 205 2 2 = 205 := by
  norm_num [counterValue, power2Out]

theorem round_counterValue_full : round (counterValue 205 2 2) = 205 := by
  rw [counterValue_full, show (205 : ℚ) = ((205 : ℤ) : ℚ) by norm_num]
  exact round_intCast 205

theorem counterRender_full : counterRender "" "" 205 2 2 = "205" := by
  rw [counterRender, round_counterValue_full]
  decide

theorem mangaStatRender_full : mangaStatRender "" 205 2 2 = "205" := by
  rw [mangaStatRender, round_counterValue_full]
  decide

/-- **C1.** Once activated, the counter's scalar is eased from 0 to the
target over the configured duration and every frame renders
`prefix + round(value) + suffix`: at every time within the duration the
rendered number is an integer `n` with `0 ≤ n ≤ target`; after full
activation (`t = duration`) with `target = 205` and empty prefix/suffix,
both the `counterAnimation` renderer and the inline Manga stat renderer
produce exactly `"205"`. -/
theorem C1_counter_rendering (pfx sfx : String) (target : ℕ) (d t : ℚ)
    (hd : 0 < d) (h0 : 0 ≤ t) (h1 : t ≤ d) :
    (∃ n : ℤ, 0 ≤ n ∧ n ≤ target ∧
        counterRender pfx sfx target d t = pfx ++ toLocaleStringEn n ++ sfx ∧
        mangaStatRender sfx target d t = toString n ++ sfx) ∧
    counterRender "" "" 205 2 2 = "205" ∧
    mangaStatRender "" 205 2 2 = "205" := by
  obtain ⟨hv0, hv1⟩ := counterValue_bounds target hd h0 h1
  refine ⟨⟨round (counterValue target d t), ?_, ?_, rfl, rfl⟩,
    counterRender_full, mangaStatRender_full⟩
  · have := round_mono_rat hv0
    simpa using this
  · have := round_mono_rat hv1
    simpa using this

/-- Witness for C1: concrete duration 2, intermediate time 1, target 205. -/
theorem C1_witness :
    (0 : ℚ) < 2 ∧ (0 : ℚ) ≤ 1 ∧ (1 : ℚ) ≤ 2 ∧
    ((∃ n : ℤ, 0 ≤ n ∧ n ≤ (205 : ℕ) ∧
        counterRender "" "" 205 2 1 = "" ++ toLocaleStringEn n ++ "" ∧
        mangaStatRender "" 205 2 1 = toString n ++ "") ∧
      counterRender "" "" 205 2 2 = "205" ∧
      mangaStatRender "" 205 2 2 = "205") :=
  ⟨by norm_num, by norm_num, by norm_num,
   C1_counter_rendering "" "" 205 2 1 (by norm_num) (by norm_num) (by norm_num)⟩

/- ===================== C2: toggle-mode descriptors ===================== -/

/-- One GSAP `toggleActions` action word. -/
inductive TogAct where
  | play
  | pause
  | resume
  | reset
  | restart
  | complete
  | reverse
  | none
deriving DecidableEq, Repr

/-- The four `toggleActions` slots: onEnter, onLeave, onEnterBack,
onLeaveBack. -/
structure ToggleActions where
  onEnter : TogAct
  onLeave : TogAct
  onEnterBack : TogAct
  onLeaveBack : TogAct
deriving DecidableEq, Repr

def parseAct : String → TogAct
  | "play" => .play
  | "pause" => .pause
  | "resume" => .resume
  | "reset" => .reset
  | "restart" => .restart
  | "complete" => .complete
  | "reverse" => .reverse
  | _ => .none

/-- Split a character list into space-separated words (accumulator holds
the current word reversed). -/
def wordsAux : List Char → List Char → List String
  | [], acc => [String.mk acc.reverse]
  | ' ' :: cs, acc => String.mk acc.reverse :: wordsAux cs []
  | c :: cs, acc => wordsAux cs (c :: acc)

/-- Parse a `toggleActions` string such as `"play none none reverse"`. -/
def parseToggleActions (s : String) : ToggleActions :=
  match (wordsAux s.toList []).map parseAct with
  | [a, b, c, d] => ⟨a, b, c, d⟩
  | _ => ⟨.none, .none, .none, .none⟩

/-- The `toggleActions: "play none none reverse"` configuration used by
`fadeInUp`, `staggerFadeIn`, `counterAnimation`, `maskReveal`
(src/lib/animations.ts) and the inline section tweens. -/
def fadeInUpActions : ToggleActions := parseToggleActions "play none none reverse"

/-- GSAP's default `toggleActions` (`"play none none none"`), which
applies to the separator tweens of `ImpactSection` (lines 56–65),
`MangaSection` and `TimelineSection`, none of which set `toggleActions`. -/
def defaultToggleActions : ToggleActions := parseToggleActions "play none none none"

/-- Settled progress of a tween after an action runs to completion:
`play`/`restart`/`complete` settle at 1, `reverse`/`reset` at 0, the
rest leave progress unchanged. -/
def applyAct : TogAct → ℚ → ℚ
  | .play, _ => 1
  | .restart, _ => 1
  | .complete, _ => 1
  | .reverse, _ => 0
  | .reset, _ => 0
  | .pause, p => p
  | .resume, p => p
  | .none, p => p

/-- One scroll observation against a toggle trigger whose start boundary
resolved to the offset `s`.  State: (settled progress, currently past the
start).  Crossing the start going down fires `onEnter`; crossing back
above it fires `onLeaveBack`.  (The end boundary's `onLeave`/`onEnterBack`
slots are `none` in every descriptor of this repository, so they never
change progress and are omitted.) -/
def stepToggle (acts : ToggleActions) (s : ℚ) (st : ℚ × Bool) (offset : ℚ) : ℚ × Bool :=
  if st.2 then
    if s ≤ offset then st else (applyAct acts.onLeaveBack st.1, false)
  else
    if s ≤ offset then (applyAct acts.onEnter st.1, true) else st

/-- Process a whole sequence of scroll offsets from the initial state
(progress 0, not yet entered). -/
def runToggle (acts : ToggleActions) (s : ℚ) (xs : List ℚ) : ℚ × Bool :=
  xs.foldl (stepToggle acts s) (0, false)

/-- The progress value after each scroll observation. -/
def traceToggle (acts : ToggleActions) (s : ℚ) : ℚ × Bool → List ℚ → List ℚ
  | _, [] => []
  | st, x :: xs =>
      let st' := stepToggle acts s st x
      st'.1 :: traceToggle acts s st' xs

/-- Number of strict rises between adjacent entries of a progress trace:
a `0 → 1` transition counts as one rise. -/
def rises : List ℚ → ℕ
  | [] => 0
  | [_] => 0
  | a :: b :: t => (if a < b then 1 else 0) + rises (b :: t)

theorem stepToggle_below_inactive (acts : ToggleActions) {s x : ℚ} (h : x < s) :
    stepToggle acts s (0, false) x = (0, false) := by
  simp [stepToggle, not_le.mpr h]

theorem stepToggle_above_active (acts : ToggleActions) {s z : ℚ} (h : s ≤ z)
    (p : ℚ) : stepToggle acts s (p, true) z = (p, true) := by
  simp [stepToggle, h]

theorem stepToggle_enter {acts : ToggleActions} (he : acts.onEnter = .play)
    {s z : ℚ} (h : s ≤ z) : stepToggle acts s (0, false) z = (1, true) := by
  simp [stepToggle, h, he, applyAct]

theorem traceToggle_below (acts : ToggleActions) {s : ℚ} (ys : List ℚ)
    (h : ∀ y ∈ ys, y < s) (rest : List ℚ) :
    traceToggle acts s (0, false) (ys ++ rest) =
      List.replicate ys.length 0 ++ traceToggle acts s (0, false) rest := by
  induction ys with
  | nil => simp
  | cons y t ih =>
      have hy : y < s := h y (List.mem_cons_self y t)
      simp only [List.cons_append, traceToggle, stepToggle_below_inactive acts hy,
        List.length_cons, List.replicate_succ, List.cons_append]
      exact congrArg _ (ih fun z hz => h z (List.mem_cons_of_mem y hz))

theorem traceToggle_above (acts : ToggleActions) {s : ℚ} (zs : List ℚ)
    (h : ∀ z ∈ zs, s ≤ z) :
    traceToggle acts s (1, true) zs = List.replicate zs.length 1 := by
  induction zs with
  | nil => simp [traceToggle]
  | cons z t ih =>
      have hz : s ≤ z := h z (List.mem_cons_self z t)
      simp only [traceToggle, stepToggle_above_active acts hz, List.length_cons,
        List.replicate_succ]
      exact congrArg _ (ih fun w hw => h w (List.mem_cons_of_mem z hw))

theorem foldl_below (acts : ToggleActions) {s : ℚ} (ys : List ℚ)
    (h : ∀ y ∈ ys, y < s) (rest : List ℚ) :
    List.foldl (stepToggle acts s) (0, false) (ys ++ rest) =
      List.foldl (stepToggle acts s) (0, false) rest := by
  induction ys with
  | nil => simp
  | cons y t ih =>
      have hy : y < s := h y (List.mem_cons_self y t)
      simp only [List.cons_append, List.foldl_cons, stepToggle_below_inactive acts hy]
      exact ih fun z hz => h z (List.mem_cons_of_mem y hz)

theorem foldl_above (acts : ToggleActions) {s : ℚ} (zs : List ℚ)
    (h : ∀ z ∈ zs, s ≤ z) :
    List.foldl (stepToggle acts s) (1, true) zs = (1, true) := by
  induction zs with
  | nil => simp
  | cons z t ih =>
      have hz : s ≤ z := h z (List.mem_cons_self z t)
      simp only [List.foldl_cons, stepToggle_above_active acts hz]
      exact ih fun w hw => h w (List.mem_cons_of_mem z hw)

theorem rises_const (c : ℚ) (k : ℕ) : rises (c :: List.replicate k c) = 0 := by
  induction k with
  | zero => simp [rises]
  | succ n ih => simpa [List.replicate_succ, rises] using ih

theorem rises_block (m k : ℕ) :
    rises (List.replicate (m + 1) (0 : ℚ) ++ List.replicate (k + 1) 1) = 1 := by
  induction m with
  | zero =>
      simp only [List.replicate_one, List.replicate_succ, List.singleton_append,
        List.cons_append, List.nil_append, rises]
      simp [rises_const 1 k]
  | succ n ih =>
      simp only [List.replicate_succ, List.cons_append, rises] at ih ⊢
      simpa using ih

/-- **C2 (counterexample).** The separator tween of `ImpactSection`
(lines 56–65) — cited by the claim as one of its toggle-mode
descriptors — sets no `toggleActions`, so GSAP's default
`"play none none none"` applies.  With start boundary 15, scrolling
10 → 20 (entering) and back to 0 leaves its progress at 1, not 0: the
descriptor does not reverse, so the pre-animation state is not restored. -/
theorem C2_counterexample :
    (runToggle defaultToggleActions 15 [10, 20, 0]).1 = 1 ∧
    (runToggle defaultToggleActions 15 [10, 20, 0]).1 ≠ 0 := by
  constructor <;> decide

/-- **C2 (amended).** Descriptors registered with
`toggleActions: "play none none reverse"` (`fadeInUp`, `staggerFadeIn`,
`counterAnimation`, `maskReveal` and the inline heading/cards/counter
tweens) do satisfy the claim: for offsets increasing monotonically
through the start boundary the progress trace rises from 0 to 1 exactly
once, and a subsequent offset back below the start reverses progress to
0.  The separator tweens, registered without `toggleActions`, default to
`"play none none none"` and keep progress 1 on the way back instead. -/
theorem C2_toggle_reverse (s : ℚ) (ys zt : List ℚ) (z back : ℚ)
    (hys : ∀ y ∈ ys, y < s) (hz : s ≤ z) (hzt : ∀ w ∈ zt, s ≤ w)
    (hback : back < s) :
    (runToggle fadeInUpActions s (ys ++ z :: zt)).1 = 1 ∧
    rises (0 :: traceToggle fadeInUpActions s (0, false) (ys ++ z :: zt)) = 1 ∧
    (runToggle fadeInUpActions s ((ys ++ z :: zt) ++ [back])).1 = 0 ∧
    (runToggle defaultToggleActions s ((ys ++ z :: zt) ++ [back])).1 = 1 := by
  have henter : fadeInUpActions.onEnter = .play := by decide
  have henter' : defaultToggleActions.onEnter = .play := by decide
  have hrun : runToggle fadeInUpActions s (ys ++ z :: zt) = (1, true) := by
    rw [runToggle, foldl_below fadeInUpActions ys hys, List.foldl_cons,
      stepToggle_enter henter hz]
    exact foldl_above fadeInUpActions zt hzt
  have hrun' : runToggle defaultToggleActions s (ys ++ z :: zt) = (1, true) := by
    rw [runToggle, foldl_below defaultToggleActions ys hys, List.foldl_cons,
      stepToggle_enter henter' hz]
    exact foldl_above defaultToggleActions zt hzt
  refine ⟨by rw [hrun], ?_, ?_, ?_⟩
  · rw [traceToggle_below fadeInUpActions ys hys]
    have : traceToggle fadeInUpActions s (0, false) (z :: zt) =
        1 :: List.replicate zt.length 1 := by
      simp only [traceToggle, stepToggle_enter henter hz]
      exact congrArg _ (traceToggle_above fadeInUpActions zt hzt)
    rw [this]
    have hshape : (0 : ℚ) :: (List.replicate ys.length 0 ++ 1 :: List.replicate zt.length 1) =
        List.replicate (ys.length + 1) (0 : ℚ) ++ List.replicate (zt.length + 1) 1 := by
      simp [List.replicate_succ, List.replicate_succ']
    rw [hshape, rises_block]
  · rw [runToggle, List.foldl_append]
    rw [runToggle] at hrun
    rw [hrun]
    simp [stepToggle, not_le.mpr hback, applyAct, show fadeInUpActions.onLeaveBack = .reverse by decide]
  · rw [runToggle, List.foldl_append]
    rw [runToggle] at hrun'
    rw [hrun']
    simp [stepToggle, not_le.mpr hback, applyAct, show defaultToggleActions.onLeaveBack = .none by decide]

/-- Witness for C2 (amended) at concrete offsets: start 15, downward
offsets 0, 10 (below), 20, 30 (above), then back to 5. -/
theorem C2_witness :
    (∀ y ∈ ([0, 10] : List ℚ), y < 15) ∧ (15 : ℚ) ≤ 20 ∧
    (∀ w ∈ ([30] : List ℚ), (15 : ℚ) ≤ w) ∧ (5 : ℚ) < 15 ∧
    ((runToggle fadeInUpActions 15 ([0, 10] ++ 20 :: [30])).1 = 1 ∧
      rises (0 :: traceToggle fadeInUpActions 15 (0, false) ([0, 10] ++ 20 :: [30])) = 1 ∧
      (runToggle fadeInUpActions 15 (([0, 10] ++ 20 :: [30]) ++ [5])).1 = 0 ∧
      (runToggle defaultToggleActions 15 (([0, 10] ++ 20 :: [30]) ++ [5])).1 = 1) :=
  ⟨by decide, by decide, by decide, by decide,
   C2_toggle_reverse 15 [0, 10] [30] 20 5 (by decide) (by decide) (by decide) (by decide)⟩

/- ===================== C3: scrub-mode descriptors ===================== -/

/-- Modelled from the spec: resolution of a ScrollTrigger position string
to a scroll offset — a start condition is "element's top edge crosses Y%
of viewport height" (§4.2), so the resolved offset is the document
position of the element anchor minus the viewport line.  The resolver is
written out for the position strings this repository actually passes
(`animations.ts` and the section components); the resolution logic itself
lives in the GSAP library, which is not vendored under `src/`. -/
def resolvePosition (elemTop elemHeight vh : ℚ) : String → ℚ
  | "top bottom" => elemTop - vh
  | "bottom top" => elemTop + elemHeight
  | "top top" => elemTop
  | "top 60%" => elemTop - (60 / 100) * vh
  | "top 70%" => elemTop - (70 / 100) * vh
  | "top 80%" => elemTop - (80 / 100) * vh
  | "top 85%" => elemTop - (85 / 100) * vh
  | "top 90%" => elemTop - (90 / 100) * vh
  | _ => elemTop

/-- Clamp to the unit interval. -/
def clamp01 (q : ℚ) : ℚ := max 0 (min 1 q)

/-- Modelled from the spec: the scheduler's scrub progress,
`progress = clamp((offset - start)/(end - start), 0, 1)` (§4.2);
the computation lives in GSAP's ScrollTrigger, not under `src/`. -/
def scrubProgress (s e O : ℚ) : ℚ := clamp01 ((O - s) / (e - s))

/-- The activation range `parallax` registers (src/lib/animations.ts
lines 97–102): defaults `start: "top bottom"`, `end: "bottom top"`. -/
def parallaxRange (elemTop eh vh : ℚ) : ℚ × ℚ :=
  (resolvePosition elemTop eh vh "top bottom", resolvePosition elemTop eh vh "bottom top")

/-- The activation range `slowZoom` registers (src/lib/animations.ts
lines 210–215): `start: "top top"`, `end: "bottom top"`. -/
def slowZoomRange (elemTop eh vh : ℚ) : ℚ × ℚ :=
  (resolvePosition elemTop eh vh "top top", resolvePosition elemTop eh vh "bottom top")

/-- The scrub contract of claim C3 at a pair of offsets: progress stays
in `[0,1]`, equals the fractional position inside `[s,e]`, follows the
offset monotonically in both directions (scrubbing back reverses partial
progress), and is Lipschitz — no discontinuous jump for a small change
in offset. -/
def scrubClaimAt (s e O O' : ℚ) : Prop :=
  (0 ≤ scrubProgress s e O ∧ scrubProgress s e O ≤ 1) ∧
  (s ≤ O → O ≤ e → scrubProgress s e O = (O - s) / (e - s)) ∧
  (O ≤ O' → scrubProgress s e O ≤ scrubProgress s e O') ∧
  |scrubProgress s e O - scrubProgress s e O'| ≤ |O - O'| / (e - s)

theorem clamp01_mem (q : ℚ) : 0 ≤ clamp01 q ∧ clamp01 q ≤ 1 :=
  ⟨le_max_left 0 _, max_le (by norm_num) (min_le_left 1 q)⟩

theorem clamp01_of_mem {q : ℚ} (h0 : 0 ≤ q) (h1 : q ≤ 1) : clamp01 q = q := by
  simp [clamp01, max_eq_right, min_eq_right, h0, h1]

theorem clamp01_mono {a b : ℚ} (h : a ≤ b) : clamp01 a ≤ clamp01 b :=
  max_le_max le_rfl (min_le_min le_rfl h)

theorem clamp01_lipschitz (a b : ℚ) : |clamp01 a - clamp01 b| ≤ |a - b| := by
  have h1 : |clamp01 a - clamp01 b| ≤ |min 1 a - min 1 b| := by
    rw [clamp01, clamp01, max_comm 0 (min 1 a), max_comm 0 (min 1 b)]
    exact abs_max_sub_max_le_abs (min 1 a) (min 1 b) 0
  have h2 : |min 1 a - min 1 b| ≤ max |1 - 1| |a - b| :=
    abs_min_sub_min_le_max 1 a 1 b
  simpa using h1.trans h2

theorem scrubClaim_of_lt {s e : ℚ} (h : s < e) (O O' : ℚ) : scrubClaimAt s e O O' := by
  have hes : (0 : ℚ) < e - s := by linarith
  refine ⟨clamp01_mem _, ?_, ?_, ?_⟩
  · intro h1 h2
    exact clamp01_of_mem (div_nonneg (by linarith) hes.le)
      ((div_le_one hes).mpr (by linarith))
  · intro hle
    exact clamp01_mono ((div_le_div_iff_of_pos_right hes).mpr (by linarith))
  · calc |scrubProgress s e O - scrubProgress s e O'|
        ≤ |(O - s) / (e - s) - (O' - s) / (e - s)| :=
          clamp01_lipschitz _ _
      _ = |O - O'| / (e - s) := by
          rw [div_sub_div_same, abs_div, abs_of_pos hes]
          ring_nf

/-- **C3.** For the scrub-mode descriptors (`parallax`: start
`"top bottom"`, end `"bottom top"`; `slowZoom`: start `"top top"`, end
`"bottom top"`), for every scroll offset the progress is
`clamp((O - start)/(end - start), 0, 1)`: it is in `[0,1]`, equals the
fractional position inside the range, increases and decreases with the
offset (scrubbing back reverses partial progress — progress is a pure
function of the offset, with no scroll-independent playback), and is
Lipschitz with constant `1/(end - start)`, so a small change in offset
cannot produce a discontinuous jump. -/
theorem C3_scrub_progress (elemTop eh vh : ℚ) (hvh : 0 < vh) (heh : 0 < eh)
    (O O' : ℚ) :
    scrubClaimAt (parallaxRange elemTop eh vh).1 (parallaxRange elemTop eh vh).2 O O' ∧
    scrubClaimAt (slowZoomRange elemTop eh vh).1 (slowZoomRange elemTop eh vh).2 O O' := by
  constructor
  · refine scrubClaim_of_lt ?_ O O'
    show elemTop - vh < elemTop + eh
    linarith
  · refine scrubClaim_of_lt ?_ O O'
    show elemTop < elemTop + eh
    linarith

/-- Witness for C3: an 800px viewport, an element 400px tall whose top
sits at document offset 1000, probed at offsets 900 and 1100. -/
theorem C3_witness :
    (0 : ℚ) < 800 ∧ (0 : ℚ) < 400 ∧
    (scrubClaimAt (parallaxRange 1000 400 800).1 (parallaxRange 1000 400 800).2 900 1100 ∧
      scrubClaimAt (slowZoomRange 1000 400 800).1 (slowZoomRange 1000 400 800).2 900 1100) :=
  ⟨by norm_num, by norm_num,
   C3_scrub_progress 1000 400 800 (by norm_num) (by norm_num) 900 1100⟩

/- ===================== C4: pinned horizontal scroll ===================== -/

/-- The trigger region a pinned horizontal-scroll effect registers. -/
structure PinRegion where
  pinStart : ℚ
  dist : ℚ
  pin : Bool
  pinSpacing : Bool
  xTarget : ℚ
deriving DecidableEq, Repr

/-- `horizontalScroll` (src/lib/animations.ts lines 108–130), given the
measured geometry: `scrollWidth = scrollContent.scrollWidth -
container.clientWidth`; trigger start `"top top"` (the pin begins when
the container's top reaches the viewport top), end `"+=scrollWidth"`,
payload tween `x: -scrollWidth`, `pin: true` with GSAP's `pinSpacing`
left at its default `true`.  The timeline of `TimelineSection` (unnamed
source `part_000`, lines 398–431) builds the identical configuration. -/
def horizontalScroll (containerTop containerHeight vh contentScrollWidth
    containerClientWidth : ℚ) : PinRegion :=
  let scrollWidth := contentScrollWidth - containerClientWidth
  { pinStart := resolvePosition containerTop containerHeight vh "top top"
    dist := scrollWidth
    pin := true
    pinSpacing := true
    xTarget := -scrollWidth }

/-- Viewport-relative position of the pinned element's top at scroll
offset `O` (GSAP pin semantics, library not under `src/`): inside the pin
range the element is fixed where it was when pinning began; before the
range it scrolls normally; after the range it sits at the end of its pin
spacer, shifted down by the pin distance, and scrolls normally again. -/
def pinnedViewportY (r : PinRegion) (elemDocTop O : ℚ) : ℚ :=
  if r.pinStart ≤ O ∧ O ≤ r.pinStart + r.dist then elemDocTop - r.pinStart
  else if O < r.pinStart then elemDocTop - O
  else elemDocTop + r.dist - O

/-- Horizontal translation of the inner payload: the `x` tween (ease
`"none"`) scrubbed from 0 to `xTarget` over the region. -/
def payloadX (r : PinRegion) (O : ℚ) : ℚ :=
  r.xTarget * scrubProgress r.pinStart (r.pinStart + r.dist) O

/-- Document layout height while the trigger is registered: with
`pin: true` and `pinSpacing` enabled (the GSAP default, which this
repository does not override) the pin spacer adds the pin distance of
scroll room below the element. -/
def layoutHeightWithPin (base : ℚ) (r : PinRegion) : ℚ :=
  base + (if r.pin ∧ r.pinSpacing then r.dist else 0)

/-- **C4 (counterexample).** Pinning does change the document's layout
height: `horizontalScroll` leaves `pinSpacing` at its default, so for a
container at document offset 1000 (height 600, viewport 800) whose
payload is 2500px wide inside a 1280px container, the pin spacer adds
`2500 - 1280 = 1220`px: a 5000px document lays out at 6220px, not
5000px, while the trigger is registered. -/
theorem C4_counterexample :
    layoutHeightWithPin 5000 (horizontalScroll 1000 600 800 2500 1280) = 6220 ∧
    layoutHeightWithPin 5000 (horizontalScroll 1000 600 800 2500 1280) ≠ 5000 := by
  constructor <;> norm_num [layoutHeightWithPin, horizontalScroll, resolvePosition]

/-- **C4 (amended).** For a pin region with positive payload overflow:
while the offset is within `[pinStart, pinEnd]` the element's position
relative to the viewport is the constant 0 (its top stays at the
viewport top), and the payload's leftward translation strictly increases
with the offset, never exceeding the overflow width; outside the range
the element participates in normal flow (its viewport position moves
one-for-one with scroll); but pinning *does* change the document's
layout height — the default pin spacing adds exactly the overflow width
to it. -/
theorem C4_pin_behavior (containerTop containerHeight vh contentW clientW base O O' : ℚ)
    (hw : clientW < contentW) :
    ((horizontalScroll containerTop containerHeight vh contentW clientW).pinStart ≤ O →
      O ≤ containerTop + (contentW - clientW) →
      pinnedViewportY (horizontalScroll containerTop containerHeight vh contentW clientW)
        containerTop O = 0) ∧
    ((horizontalScroll containerTop containerHeight vh contentW clientW).pinStart ≤ O →
      O < O' → O' ≤ containerTop + (contentW - clientW) →
      -payloadX (horizontalScroll containerTop containerHeight vh contentW clientW) O <
        -payloadX (horizontalScroll containerTop containerHeight vh contentW clientW) O') ∧
    (-payloadX (horizontalScroll containerTop containerHeight vh contentW clientW) O ≤
      contentW - clientW) ∧
    (O < containerTop →
      pinnedViewportY (horizontalScroll containerTop containerHeight vh contentW clientW)
        containerTop O = containerTop - O) ∧
    (containerTop + (contentW - clientW) < O →
      pinnedViewportY (horizontalScroll containerTop containerHeight vh contentW clientW)
        containerTop O = containerTop + (contentW - clientW) - O) ∧
    layoutHeightWithPin base (horizontalScroll containerTop containerHeight vh contentW clientW) =
      base + (contentW - clientW) := by
  have hd : (0 : ℚ) < contentW - clientW := by linarith
  have hstart : (horizontalScroll containerTop containerHeight vh contentW clientW).pinStart =
      containerTop := rfl
  refine ⟨?_, ?_, ?_, ?_, ?_, ?_⟩
  · intro h1 h2
    rw [hstart] at h1
    simp [pinnedViewportY, horizontalScroll, resolvePosition, h1, h2]
  · intro h1 h2 h3
    rw [hstart] at h1
    have hx : ∀ X : ℚ, containerTop ≤ X → X ≤ containerTop + (contentW - clientW) →
        -payloadX (horizontalScroll containerTop containerHeight vh contentW clientW) X =
          X - containerTop := by
      intro X hX1 hX2
      have hprog : scrubProgress containerTop (containerTop + (contentW - clientW)) X =
          (X - containerTop) / (contentW - clientW) := by
        have := (scrubClaim_of_lt (show containerTop < containerTop + (contentW - clientW) by
          linarith) X X).2.1 hX1 hX2
        simpa using this
      show -((-(contentW - clientW)) *
          scrubProgress containerTop (containerTop + (contentW - clientW)) X) = X - containerTop
      rw [hprog]
      field_simp
      ring
    rw [hx O h1 (by linarith), hx O' (by linarith) h3]
    linarith
  · have hp0 := (clamp01_mem ((O - containerTop) /
      (containerTop + (contentW - clientW) - containerTop))).1
    have hp1 := (clamp01_mem ((O - containerTop) /
      (containerTop + (contentW - clientW) - containerTop))).2
    show -((-(contentW - clientW)) *
        clamp01 ((O - containerTop) / (containerTop + (contentW - clientW) - containerTop))) ≤
      contentW - clientW
    nlinarith [hp0, hp1, hd]
  · intro h1
    have : ¬(containerTop ≤ O ∧ O ≤ containerTop + (contentW - clientW)) := by
      intro h; linarith [h.1]
    simp [pinnedViewportY, horizontalScroll, resolvePosition, this, h1]
  · intro h1
    have hnot : ¬(containerTop ≤ O ∧ O ≤ containerTop + (contentW - clientW)) := by
      intro h; linarith [h.2]
    have hnot2 : ¬(O < containerTop) := by linarith
    simp [pinnedViewportY, horizontalScroll, resolvePosition, hnot, hnot2]
  · simp [layoutHeightWithPin, horizontalScroll, resolvePosition]

/-- Witness for C4 (amended): container top 1000, height 600, viewport
800, payload 2500px wide in a 1280px container, probed mid-pin at
offsets 1500 and 1600 over a 5000px document. -/
theorem C4_witness :
    (1280 : ℚ) < 2500 ∧
    pinnedViewportY (horizontalScroll 1000 600 800 2500 1280) 1000 1500 = 0 ∧
    (-payloadX (horizontalScroll 1000 600 800 2500 1280) 1500 <
      -payloadX (horizontalScroll 1000 600 800 2500 1280) 1600) ∧
    (-payloadX (horizontalScroll 1000 600 800 2500 1280) 1500 ≤ 2500 - 1280) ∧
    pinnedViewportY (horizontalScroll 1000 600 800 2500 1280) 1000 500 = 1000 - 500 ∧
    pinnedViewportY (horizontalScroll 1000 600 800 2500 1280) 1000 3000 =
      1000 + (2500 - 1280) - 3000 ∧
    layoutHeightWithPin 5000 (horizontalScroll 1000 600 800 2500 1280) =
      5000 + (2500 - 1280) := by
  have w := C4_pin_behavior 1000 600 800 2500 1280 5000 1500 1600 (by norm_num)
  have w2 := C4_pin_behavior 1000 600 800 2500 1280 5000 500 1600 (by norm_num)
  have w3 := C4_pin_behavior 1000 600 800 2500 1280 5000 3000 1600 (by norm_num)
  refine ⟨by norm_num,
    w.1 (by norm_num [horizontalScroll, resolvePosition]) (by norm_num),
    w.2.1 (by norm_num [horizontalScroll, resolvePosition]) (by norm_num) (by norm_num),
    w.2.2.1,
    w2.2.2.2.1 (by norm_num),
    w3.2.2.2.2.1 (by norm_num),
    w.2.2.2.2.2⟩

/- ===================== C7: degenerate activation range ===================== -/

/-- A JavaScript number as the progress computation can produce it:
finite, signed infinity, or NaN. -/
inductive JsNum where
  | fin (q : ℚ)
  | posInf
  | negInf
  | nan
deriving DecidableEq, Repr

/-- IEEE-754 division as JavaScript evaluates `(O - start)/(end - start)`
on finite inputs: a zero denominator yields a signed infinity (or NaN for
`0/0`). -/
def jsDiv (a b : ℚ) : JsNum :=
  if b = 0 then
    if 0 < a then .posInf else if a < 0 then .negInf else .nan
  else .fin (a / b)

/-- Clamping the ratio to `[0, 1]` by comparisons, as the scheduler does:
`+∞` clamps to 1, `-∞` to 0, NaN propagates. -/
def jsClamp01 : JsNum → JsNum
  | .fin q => .fin (clamp01 q)
  | .posInf => .fin 1
  | .negInf => .fin 0
  | .nan => .nan

/-- Modelled from the spec: the scheduler's progress computation
`clamp((offset - start)/(end - start), 0, 1)` (§4.2) carried out in
JavaScript arithmetic, so that a degenerate `start = end` range exercises
the division by zero; the computation lives in GSAP's ScrollTrigger, not
under `src/`. -/
def scrubProgressJs (s e O : ℚ) : JsNum := jsClamp01 (jsDiv (O - s) (e - s))

/-- **C7 (counterexample).** At the one offset inside a degenerate
`[start, start]` range — the start itself — the modelled progress *is*
the undefined value: for a pinned horizontal-scroll region at offset 100
whose payload has zero overflow (width = container width = 1280), the
ratio is `0/0` and the progress is NaN, not the fully-activated 1.0 the
claim promises. -/
theorem C7_counterexample :
    scrubProgressJs (horizontalScroll 100 600 800 1280 1280).pinStart
      ((horizontalScroll 100 600 800 1280 1280).pinStart +
        (horizontalScroll 100 600 800 1280 1280).dist) 100 = .nan ∧
    scrubProgressJs (horizontalScroll 100 600 800 1280 1280).pinStart
      ((horizontalScroll 100 600 800 1280 1280).pinStart +
        (horizontalScroll 100 600 800 1280 1280).dist) 100 ≠ .fin 1 := by
  have hstart : (horizontalScroll 100 600 800 1280 1280).pinStart = (100 : ℚ) := rfl
  have hdist : (horizontalScroll 100 600 800 1280 1280).dist = (0 : ℚ) := by
    show (1280 : ℚ) - 1280 = 0
    ring
  rw [hstart, hdist]
  have h : scrubProgressJs 100 (100 + 0) 100 = .nan := by
    norm_num [scrubProgressJs, jsDiv, jsClamp01]
  exact ⟨h, by rw [h]; exact fun hc => JsNum.noConfusion hc⟩

/-- **C7 (amended).** For a pinned horizontal-scroll region whose payload
has zero overflow (`scrollContent.scrollWidth = container.clientWidth`,
so `end = start + 0`): at every offset strictly past the start the
progress is the defined value 1 — the division by zero produces `+∞`,
which the clamp turns into fully-activated — and at every offset strictly
before the start it is the defined value 0; but at the boundary offset
itself (`O = start`, the only point of the degenerate range) the ratio is
`0/0` and the progress is NaN rather than 1.0. -/
theorem C7_degenerate_range (containerTop containerHeight vh w O : ℚ) :
    (containerTop < O →
      scrubProgressJs (horizontalScroll containerTop containerHeight vh w w).pinStart
        ((horizontalScroll containerTop containerHeight vh w w).pinStart +
          (horizontalScroll containerTop containerHeight vh w w).dist) O = .fin 1) ∧
    (O < containerTop →
      scrubProgressJs (horizontalScroll containerTop containerHeight vh w w).pinStart
        ((horizontalScroll containerTop containerHeight vh w w).pinStart +
          (horizontalScroll containerTop containerHeight vh w w).dist) O = .fin 0) ∧
    (O = containerTop →
      scrubProgressJs (horizontalScroll containerTop containerHeight vh w w).pinStart
        ((horizontalScroll containerTop containerHeight vh w w).pinStart +
          (horizontalScroll containerTop containerHeight vh w w).dist) O = .nan) := by
  have hstart : (horizontalScroll containerTop containerHeight vh w w).pinStart =
      containerTop := rfl
  have hdist : (horizontalScroll containerTop containerHeight vh w w).dist = 0 := by
    show w - w = 0
    ring
  refine ⟨?_, ?_, ?_⟩
  · intro h
    rw [hstart, hdist]
    simp [scrubProgressJs, jsDiv, jsClamp01, sub_pos.mpr h]
  · intro h
    rw [hstart, hdist]
    have h1 : ¬(0 : ℚ) < O - containerTop := by linarith
    have h2 : O - containerTop < 0 := by linarith
    simp [scrubProgressJs, jsDiv, jsClamp01, h1, h2]
  · intro h
    rw [hstart, hdist, h]
    simp [scrubProgressJs, jsDiv, jsClamp01]

/-- Witness for C7 (amended): a degenerate region at offset 100 (payload
width = container width = 1280), probed just past the start, just before
it, and at the boundary itself. -/
theorem C7_witness :
    ((100 : ℚ) < 105 →
      scrubProgressJs (horizontalScroll 100 600 800 1280 1280).pinStart
        ((horizontalScroll 100 600 800 1280 1280).pinStart +
          (horizontalScroll 100 600 800 1280 1280).dist) 105 = .fin 1) ∧
    ((95 : ℚ) < 100 →
      scrubProgressJs (horizontalScroll 100 600 800 1280 1280).pinStart
        ((horizontalScroll 100 600 800 1280 1280).pinStart +
          (horizontalScroll 100 600 800 1280 1280).dist) 95 = .fin 0) ∧
    scrubProgressJs (horizontalScroll 100 600 800 1280 1280).pinStart
      ((horizontalScroll 100 600 800 1280 1280).pinStart +
        (horizontalScroll 100 600 800 1280 1280).dist) 100 = .nan :=
  ⟨(C7_degenerate_range 100 600 800 1280 105).1,
   fun _ => (C7_degenerate_range 100 600 800 1280 95).2.1 (by norm_num),
   (C7_degenerate_range 100 600 800 1280 100).2.2 rfl⟩

/- ===================== C8: idempotent disposal ===================== -/

/-- Modelled from the spec: the component-scoped disposal context — the
value `createGsapContext` (src/lib/animations.ts lines 222–224) returns
and every section reverts in its effect cleanup (e.g. `ImpactSection`
line 112, `return () => ctx.revert()`).  It records the ids of the tween
and trigger registrations created in its scope; the `gsap.context`
internals live in the GSAP library, not under `src/`. -/
structure GsapContext where
  tweens : List ℕ
  triggers : List ℕ
deriving DecidableEq, Repr

/-- The scheduler's global registries: the trigger regions consulted on
every scroll recomputation, and the tween callbacks on the frame ticker. -/
structure Scheduler where
  triggers : List ℕ
  tickerTweens : List ℕ
deriving DecidableEq, Repr

/-- `ctx.revert()`: kills every tween and trigger created in the scope —
removing them from the scheduler registries, which cancels in-flight
tweens and detaches the regions — and empties the context.  Teardown
only ever removes registrations; it never adds one. -/
def revertContext (c : GsapContext) (g : Scheduler) : GsapContext × Scheduler :=
  (⟨[], []⟩,
   ⟨g.triggers.filter fun t => decide (t ∉ c.triggers),
    g.tickerTweens.filter fun t => decide (t ∉ c.tweens)⟩)

/-- Whether a frame recomputation still drives trigger `t`. -/
def firesFor (g : Scheduler) (t : ℕ) : Bool := decide (t ∈ g.triggers)

/-- **C8.** Disposal is idempotent and complete: reverting a context a
second time is a no-op (same state, no error — `revertContext` is total —
and no duplicate frame-callback registration); after disposal every
trigger of the scope is detached from future scroll recomputation and
never fires again, every tween of the scope is off the frame ticker
(in-flight tweens cancelled), and teardown never grows either registry. -/
theorem C8_revert_idempotent (c : GsapContext) (g : Scheduler) :
    (revertContext (revertContext c g).1 (revertContext c g).2 = revertContext c g) ∧
    (∀ t ∈ c.triggers, t ∉ (revertContext c g).2.triggers) ∧
    (∀ t ∈ c.triggers, firesFor (revertContext c g).2 t = false) ∧
    (∀ w ∈ c.tweens, w ∉ (revertContext c g).2.tickerTweens) ∧
    (revertContext c g).2.triggers.length ≤ g.triggers.length ∧
    (revertContext c g).2.tickerTweens.length ≤ g.tickerTweens.length := by
  refine ⟨?_, ?_, ?_, ?_, ?_, ?_⟩
  · simp [revertContext, List.filter_eq_self]
  · intro t ht
    simp [revertContext, List.mem_filter]
    intro _
    exact ht
  · intro t ht
    have : t ∉ (revertContext c g).2.triggers := by
      simp [revertContext, List.mem_filter]
      intro _
      exact ht
    simpa [firesFor] using this
  · intro w hw
    simp [revertContext, List.mem_filter]
    intro _
    exact hw
  · exact List.length_filter_le _ _
  · exact List.length_filter_le _ _

/-- Witness for C8: a scope owning tween 1 and trigger 2, with scheduler
registries `[2, 5]` and `[1, 7]`. -/
theorem C8_witness :
    (revertContext (revertContext ⟨[1], [2]⟩ ⟨[2, 5], [1, 7]⟩).1
        (revertContext ⟨[1], [2]⟩ ⟨[2, 5], [1, 7]⟩).2 =
      revertContext ⟨[1], [2]⟩ ⟨[2, 5], [1, 7]⟩) ∧
    (2 : ℕ) ∈ (⟨[1], [2]⟩ : GsapContext).triggers ∧
    (2 : ℕ) ∉ (revertContext ⟨[1], [2]⟩ ⟨[2, 5], [1, 7]⟩).2.triggers ∧
    firesFor (revertContext ⟨[1], [2]⟩ ⟨[2, 5], [1, 7]⟩).2 2 = false ∧
    (1 : ℕ) ∉ (revertContext ⟨[1], [2]⟩ ⟨[2, 5], [1, 7]⟩).2.tickerTweens :=
  ⟨(C8_revert_idempotent ⟨[1], [2]⟩ ⟨[2, 5], [1, 7]⟩).1,
   by decide,
   (C8_revert_idempotent ⟨[1], [2]⟩ ⟨[2, 5], [1, 7]⟩).2.1 2 (by decide),
   (C8_revert_idempotent ⟨[1], [2]⟩ ⟨[2, 5], [1, 7]⟩).2.2.1 2 (by decide),
   (C8_revert_idempotent ⟨[1], [2]⟩ ⟨[2, 5], [1, 7]⟩).2.2.2.1 1 (by decide)⟩

end DemonSlayer
